import Mathlib

/-!
Verification of the deterministic safety-matching engine and its UI-side
aggregation code in the Appergy repository.

Conventions used throughout:
* Strings are modelled as `String` at the API boundary, with the character
  list (`String.data`) used where index arithmetic matters.
* Code that is present in the repository sources (ResultsScreen.tsx,
  UnsafeIssuesModal, ScanScreen, the profile loaders, toggleProfile) is
  embedded function-by-function.  The matching engine itself
  (services/ai, services/analysisPipeline) is only imported by those
  files; its behaviour is modelled from the specification and every such
  definition is marked `Modelled from the spec:` in its doc comment.
-/

namespace Appergy

/-- The tri-state safety status used by `ProfileResult` and by the
scan-level badge (`SafetyStatus` in services/ai). -/
inductive SafetyStatus where
  | safe : SafetyStatus
  | caution : SafetyStatus
  | unsafe_ : SafetyStatus
deriving DecidableEq, Repr

/-- One per-profile evaluation result, with the fields consumed by
ResultsScreen.tsx and UnsafeIssuesModal (profileId, name, status, the
three deduplicated matched-term lists, and the ordered reason lines). -/
structure ProfileResult where
  profileId : String
  name : String
  status : SafetyStatus
  matchedAllergens : List String
  matchedKeywords : List String
  matchedPreferences : List String
  reasons : List String
deriving DecidableEq, Repr

/-- Severity rank of a status: unsafe > caution > safe. -/
def severity : SafetyStatus → Nat
  | .safe => 0
  | .caution => 1
  | .unsafe_ => 2

/-- The more severe of two statuses (unsafe > caution > safe). -/
def maxStatus (a b : SafetyStatus) : SafetyStatus :=
  if severity a < severity b then b else a

/-- Specification-side overall status: the maximum-severity status in a
list of profile results, `safe` when the list is empty. -/
def maxSeverityStatus (results : List ProfileResult) : SafetyStatus :=
  results.foldr (fun r acc => maxStatus (r.status) acc) .safe

/-- Embeds the summary counters of ResultsScreen.tsx
(`analysisResult.results.filter((r) => r.status === s).length`). -/
def statusCount (results : List ProfileResult) (s : SafetyStatus) : Nat :=
  (results.filter (fun r => r.status = s)).length

/-- Embeds `overallStatus` of ResultsScreen.tsx:
`unsafeCount > 0 ? "unsafe" : cautionCount > 0 ? "caution" : "safe"`. -/
def overallStatus (results : List ProfileResult) : SafetyStatus :=
  if 0 < statusCount results .unsafe_ then .unsafe_
  else if 0 < statusCount results .caution then .caution
  else .safe

/-! ### Matcher, modelled from the spec (the services/ai and
services/analysisPipeline modules are only imported by the files in this
repository snapshot, so the matching engine itself is reconstructed from
the specification, section 4). -/

/-- A character that counts as part of a word for the word-boundary
guard. -/
def isAlphanumeric (c : Char) : Bool := c.isAlpha || c.isDigit

/-- Case-folded comparison form of a string, as a character list. -/
def lowerChars (s : String) : List Char := s.data.map Char.toLower

/-- Case-folded comparison form of a string (character-wise lowering,
mirroring toLowerCase). -/
def lowerString (s : String) : String := String.mk (lowerChars s)

/-- Modelled from the spec: the pattern occurs in the text at index
`i` (plain substring occurrence, before the boundary guard). -/
def occursAt (pat text : List Char) (i : Nat) : Bool :=
  pat.isPrefixOf (text.drop i)

/-- Modelled from the spec: the word-boundary guard at index `i` — the
occurrence is accepted only when it is not bordered on either side by
another alphanumeric character. -/
def boundaryClearAt (pat text : List Char) (i : Nat) : Bool :=
  (decide (i = 0) || !isAlphanumeric (text.getD (i - 1) ' ')) &&
    (decide (text.length ≤ i + pat.length) ||
      !isAlphanumeric (text.getD (i + pat.length) ' '))

/-- Modelled from the spec: one accepted pattern occurrence — a substring
occurrence that passes the word-boundary guard. -/
def acceptedAt (pat text : List Char) (i : Nat) : Bool :=
  occursAt pat text i && boundaryClearAt pat text i

/-- Modelled from the spec: case-insensitive substring search of the
pattern inside the token, accepting a position only when the
word-boundary guard passes. -/
def patternMatches (pattern token : String) : Bool :=
  let pat := lowerChars pattern
  let text := lowerChars token
  (List.range (text.length + 1)).any (fun i => acceptedAt pat text i)

/-! ### Text normalizer, modelled from the spec (section 4.2). -/

/-- A token separator of the normalizer: comma, semicolon or newline. -/
def isSeparatorChar (c : Char) : Bool :=
  c = ',' || c = ';' || c = '\n'

/-- Splits a character list at separator characters (the separators are
dropped; empty pieces are kept here and filtered later). -/
def splitRaw : List Char → List (List Char)
  | [] => [[]]
  | c :: rest =>
    let r := splitRaw rest
    if isSeparatorChar c then [] :: r
    else
      match r with
      | [] => [[c]]
      | t :: ts => (c :: t) :: ts

/-- Trims leading and trailing whitespace from a character list. -/
def trimChars (l : List Char) : List Char :=
  ((l.dropWhile Char.isWhitespace).reverse.dropWhile Char.isWhitespace).reverse

/-- Modelled from the spec: the text normalizer — split the raw text on
comma/semicolon/newline separators, trim whitespace, drop empty tokens,
preserving the original casing of every token. -/
def normalizeText (text : String) : List String :=
  (((splitRaw text.data).map trimChars).filter (fun t => !t.isEmpty)).map
    (fun t => String.mk t)

/-! ### Term dictionary, modelled from the spec (sections 4.1, 4.3, 8). -/

/-- Modelled from the spec: the static allergen synonym sets (for example
"Milk" matches milk, dairy, casein, whey, lactose); an unknown custom
term is a singleton pattern set holding the term itself in lowercase. -/
def allergenPatterns (term : String) : List String :=
  if term = "Milk" then ["milk", "dairy", "casein", "whey", "lactose"]
  else if term = "Gluten" then ["gluten", "wheat", "barley", "rye"]
  else if term = "Peanuts" then ["peanut", "peanuts"]
  else if term = "Eggs" then ["egg", "eggs"]
  else [lowerString term]

/-- Modelled from the spec: the conflict set of a dietary preference — a
preference is violated when a token matches a term in its conflict set
(for Vegan: meat, dairy, gelatin, honey and the dairy and egg derived
terms such as whey); an unknown custom preference is its own
single-pattern term. -/
def preferenceConflicts (pref : String) : List String :=
  if pref = "Vegan" then
    ["meat", "dairy", "gelatin", "honey", "milk", "whey", "casein",
      "egg", "eggs"]
  else if pref = "Vegetarian" then
    ["meat", "chicken", "beef", "pork", "fish", "gelatin"]
  else [lowerString pref]

/-- A dietary profile at the engine boundary: identity plus allergy,
preference and forbidden-keyword term lists (`ProfileInfo` in the
callers). -/
structure Profile where
  id : String
  name : String
  allergies : List String
  preferences : List String
  forbiddenKeywords : List String
deriving DecidableEq, Repr

/-- Category of one match: allergen, forbidden keyword or
preference conflict. -/
inductive MatchCategory where
  | allergen : MatchCategory
  | keyword : MatchCategory
  | preference : MatchCategory
deriving DecidableEq, Repr

/-- One match found by the matcher: the matched term name and its
category. -/
structure MatchRecord where
  term : String
  category : MatchCategory
deriving DecidableEq, Repr

/-- Modelled from the spec: all matches of one ingredient token against
one profile — allergens through their synonym sets, forbidden keywords as
single patterns, preferences through their conflict sets; every match is
retained, not just the first. -/
def matchToken (tok : String) (p : Profile) : List MatchRecord :=
  ((p.allergies.filter
      (fun a => (allergenPatterns a).any (fun pat => patternMatches pat tok))).map
    (fun a => { term := a, category := .allergen })) ++
  ((p.forbiddenKeywords.filter (fun k => patternMatches k tok)).map
    (fun k => { term := k, category := .keyword })) ++
  ((p.preferences.filter
      (fun pr => (preferenceConflicts pr).any (fun pat => patternMatches pat tok))).map
    (fun pr => { term := pr, category := .preference }))

/-- Modelled from the spec: all MatchRecords of one profile across the
token sequence of a scan. -/
def profileMatchRecords (tokens : List String) (p : Profile) : List MatchRecord :=
  tokens.flatMap (fun t => matchToken t p)

/-! ### Profile evaluator, modelled from the spec (section 4.4). -/

/-- Modelled from the spec: case-insensitive deduplication keeping first
occurrences. -/
def dedupCaseInsensitive (l : List String) : List String :=
  l.foldl
    (fun acc t =>
      if acc.any (fun u => lowerString u = lowerString t) then acc else acc ++ [t])
    []

/-- The term names of the records in one category. -/
def recordTerms (records : List MatchRecord) (c : MatchCategory) : List String :=
  (records.filter (fun r => r.category = c)).map (fun r => r.term)

/-- Modelled from the spec: the status policy — unsafe if the allergen
list or the forbidden-keyword list is non-empty, else caution if the
preference-conflict list is non-empty, else safe. -/
def profileStatus (als kws prs : List String) : SafetyStatus :=
  if !als.isEmpty || !kws.isEmpty then .unsafe_
  else if !prs.isEmpty then .caution
  else .safe

/-- The reason line of one matched allergen. -/
def allergenReason (term name : String) : String :=
  "Contains " ++ term ++ " (allergen for " ++ name ++ ")"

/-- The reason line of one matched forbidden keyword. -/
def keywordReason (term name : String) : String :=
  "Contains " ++ term ++ " (forbidden for " ++ name ++ ")"

/-- The reason line of one matched preference conflict. -/
def preferenceReason (term : String) : String :=
  "violates " ++ term ++ " preference"

/-- Modelled from the spec: the profile evaluator — deduplicate each
category, derive the status from the three lists, and emit the reason
lines in the order allergens, forbidden keywords, preferences. -/
def evaluateProfile (id name : String) (records : List MatchRecord) : ProfileResult :=
  let als := dedupCaseInsensitive (recordTerms records .allergen)
  let kws := dedupCaseInsensitive (recordTerms records .keyword)
  let prs := dedupCaseInsensitive (recordTerms records .preference)
  { profileId := id
    name := name
    status := profileStatus als kws prs
    matchedAllergens := als
    matchedKeywords := kws
    matchedPreferences := prs
    reasons :=
      als.map (fun t => allergenReason t name) ++
      kws.map (fun t => keywordReason t name) ++
      prs.map (fun t => preferenceReason t) }

/-- Modelled from the spec: one profile evaluated against one raw
ingredient text (normalizer, matcher, evaluator in sequence). -/
def analyzeProfile (text : String) (p : Profile) : ProfileResult :=
  evaluateProfile p.id p.name (profileMatchRecords (normalizeText text) p)

/-- Concrete profile used by the dominance test vector of the spec:
allergic to Milk and following a Vegan preference. -/
def veganMilkProfile : Profile :=
  { id := "p1", name := "Alex", allergies := ["Milk"],
    preferences := ["Vegan"], forbiddenKeywords := [] }

/-! ### UnsafeIssuesModal (embedded from components/UnsafeIssuesModal). -/

/-- Issue category tag of the modal (`IssueItem.type`). -/
inductive IssueType where
  | allergen : IssueType
  | keyword : IssueType
  | preference : IssueType
deriving DecidableEq, Repr

/-- One issue row of the modal (`IssueItem`). -/
structure IssueItem where
  person : String
  type : IssueType
  item : String
  reason : Option String
deriving DecidableEq, Repr

/-- Embeds the `allIssues` construction of UnsafeIssuesModal: safe
results are skipped; per result the matched allergens, then keywords,
then preferences are pushed, preferences carrying the reason string
`violates PREF preference`. -/
def buildIssues (results : List ProfileResult) : List IssueItem :=
  results.flatMap (fun r =>
    if r.status = .safe then []
    else
      (r.matchedAllergens.map
        (fun a => { person := r.name, type := .allergen, item := a, reason := none })) ++
      (r.matchedKeywords.map
        (fun k => { person := r.name, type := .keyword, item := k, reason := none })) ++
      (r.matchedPreferences.map
        (fun p => { person := r.name, type := .preference, item := p,
                    reason := some ("violates " ++ p ++ " preference") })))

/-- The rendered text of one allergen row of the modal. -/
def modalAllergenLine (i : IssueItem) : String :=
  "Contains " ++ i.item ++ " (allergen for " ++ i.person ++ ")"

/-- The rendered text of one forbidden-keyword row of the modal. -/
def modalKeywordLine (i : IssueItem) : String :=
  "Contains " ++ i.item ++ " (forbidden for " ++ i.person ++ ")"

/-- The rendered text of one preference row of the modal (the fallback
wording is used when the issue carries no reason string). -/
def modalPreferenceLine (i : IssueItem) : String :=
  "Contains " ++ i.item ++ " (" ++
    i.reason.getD ("conflicts with " ++ i.person ++ "\x27s diet") ++ ")"

/-- Embeds the rendering order of UnsafeIssuesModal: the allergen
section, then the forbidden-keyword section, then the preference
section, each filtered from `allIssues`. -/
def renderIssuesModal (results : List ProfileResult) : List String :=
  (((buildIssues results).filter (fun i => i.type = .allergen)).map modalAllergenLine) ++
  (((buildIssues results).filter (fun i => i.type = .keyword)).map modalKeywordLine) ++
  (((buildIssues results).filter (fun i => i.type = .preference)).map modalPreferenceLine)

/-! ### Profile loading (embedded from the ScanScreen `loadProfiles`,
the AuthContext `loadUserProfile` and the GroceryScanScreen
`loadUserProfile`). -/

/-- The shape of an allergy or preference collection as stored: either a
legacy flat array or the structured object with optional `common`,
`custom` and `none` fields. -/
inductive CollectionData where
  | flat : List String → CollectionData
  | structured : Option (List String) → Option (List String) →
      Option Bool → CollectionData
deriving DecidableEq, Repr

/-- A stored profile record; any field may be absent. -/
structure RawProfileData where
  name : Option String
  allergies : Option CollectionData
  preferences : Option CollectionData
deriving DecidableEq, Repr

/-- Embeds the collection extraction of the loaders: a missing
collection (or the structured form with missing `common`/`custom`
arrays) contributes the empty list, a flat array is used as is, and the
structured form concatenates `common` and `custom`. -/
def extractTerms : Option CollectionData → List String
  | none => []
  | some (.flat l) => l
  | some (.structured c cu _) => c.getD [] ++ cu.getD []

/-- Embeds the profile construction of the loaders: the record is never
rejected — every field defaults (name to the fallback user name,
collections to empty lists) and a total `Profile` is always built. -/
def loadProfileFromData (id fallbackName : String) (kw : List String)
    (data : RawProfileData) : Profile :=
  { id := id
    name := data.name.getD fallbackName
    allergies := extractTerms data.allergies
    preferences := extractTerms data.preferences
    forbiddenKeywords := kw }

/-! ### Barcode analysis routing (embedded from the ScanScreen
`handleBarcodeScanned`). -/

/-- A product looked up by barcode; the ingredient and allergen arrays
may be absent. -/
structure BarcodeProduct where
  found : Bool
  ingredients : Option (List String)
  allergens : Option (List String)
deriving DecidableEq, Repr

/-- Embeds the text block handed to the engine: the ingredient list
followed by the allergens each rendered as "Contains: A", joined with
", ". -/
def buildBarcodeText (p : BarcodeProduct) : String :=
  String.intercalate ", "
    ((p.ingredients.getD []) ++
      (p.allergens.getD []).map (fun a => "Contains: " ++ a))

/-- Which analysis path the barcode handler takes. -/
inductive BarcodeAnalysisRoute where
  | pipelineText : String → BarcodeAnalysisRoute
  | barcodeFallback : BarcodeAnalysisRoute
deriving DecidableEq, Repr

/-- Embeds the routing of `handleBarcodeScanned`: the deterministic text
pipeline when the combined text is non-empty, else the
`analyzeBarcodeProduct` fallback. -/
def chooseBarcodeAnalysis (p : BarcodeProduct) : BarcodeAnalysisRoute :=
  if 0 < (buildBarcodeText p).length then .pipelineText (buildBarcodeText p)
  else .barcodeFallback

/-! ### Dish/menu adapter, modelled from the spec (section 4.6). -/

/-- The two-valued dish verdict of the menu path. -/
inductive MenuVerdict where
  | safeVerdict : MenuVerdict
  | unsafeVerdict : MenuVerdict
deriving DecidableEq, Repr

/-- Conflict category of the menu path. -/
inductive ConflictType where
  | allergyRisk : ConflictType
  | preferenceMismatch : ConflictType
  | forbiddenKeyword : ConflictType
deriving DecidableEq, Repr

/-- One structured conflict of a dish. -/
structure ConflictRecord where
  type : ConflictType
  matchedTerm : String
  detail : String
deriving DecidableEq, Repr

/-- Modelled from the spec: category-to-conflict-type mapping of the
menu adapter (allergen to allergy risk, forbidden keyword to forbidden
keyword, preference conflict to preference mismatch). -/
def conflictOfRecord (m : MatchRecord) : ConflictRecord :=
  match m.category with
  | .allergen =>
    { type := .allergyRisk, matchedTerm := m.term,
      detail := "Contains " ++ m.term }
  | .keyword =>
    { type := .forbiddenKeyword, matchedTerm := m.term,
      detail := "Contains " ++ m.term }
  | .preference =>
    { type := .preferenceMismatch, matchedTerm := m.term,
      detail := preferenceReason m.term }

/-- Modelled from the spec: the conflict records of one dish — the same
matcher run over the dish's inferred ingredient list against the union
viewer profile, mapped to ConflictRecords. -/
def dishConflicts (dishIngredients : List String) (viewer : Profile) :
    List ConflictRecord :=
  (profileMatchRecords dishIngredients viewer).map conflictOfRecord

/-- Modelled from the spec: the dish verdict — Unsafe if any
ConflictRecord exists, else Safe (no third state on the dish path). -/
def dishVerdict (conflicts : List ConflictRecord) : MenuVerdict :=
  if conflicts.isEmpty then .safeVerdict else .unsafeVerdict

/-- Concrete viewer profile with only a Vegan preference (no allergies,
no forbidden keywords), used to show preference-only conflicts still
yield Unsafe on the dish path. -/
def veganOnlyProfile : Profile :=
  { id := "p2", name := "Sam", allergies := [], preferences := ["Vegan"],
    forbiddenKeywords := [] }

/-! ### Profile selection toggle (embedded from the ScanScreen inline
toggle and the RecipeGeneratorScreen `toggleProfile`). -/

/-- Embeds `toggleProfile`: deselecting is refused when exactly one
profile is selected; selecting appends. -/
def toggleProfile (selected : List String) (id : String) : List String :=
  if selected.contains id then
    if 1 < selected.length then selected.filter (fun x => x ≠ id)
    else selected
  else selected ++ [id]

/-! ### IngredientHighlighter (embedded from ResultsScreen.tsx). -/

/-- One matched-ingredient entry handed to the highlighter
(`matchedIngredients` of the AnalysisResult). -/
structure MatchedIngredient where
  name : String
  type : String
deriving DecidableEq, Repr

/-- One highlight span of the highlighter (`start`/`end`/`type`; the end
index is named `stop` here because `end` is reserved). -/
structure HighlightSpan where
  start : Nat
  stop : Nat
  type : String
deriving DecidableEq, Repr

/-- One rendered text segment of the highlighter. -/
structure TextSegment where
  text : List Char
  type : Option String
deriving DecidableEq, Repr

/-- Embeds `lowerText.indexOf(term, pos)`: the first index at or after
`pos` where the pattern occurs (none when there is no such index). -/
def indexOfFrom (pat text : List Char) (pos : Nat) : Option Nat :=
  (List.range (text.length + 1)).find?
    (fun i => decide (pos ≤ i) && pat.isPrefixOf (text.drop i))

/-- Embeds the occurrence-collection loop of the highlighter: starting
at `pos`, find each occurrence of the pattern, record a span from the
occurrence to occurrence + pattern length, and continue from
occurrence + 1. -/
def collectSpans (pat text : List Char) (ty : String) (pos : Nat) :
    List HighlightSpan :=
  if h : pos < text.length then
    match hidx : indexOfFrom pat text pos with
    | none => []
    | some idx =>
      { start := idx, stop := idx + pat.length, type := ty } ::
        collectSpans pat text ty (idx + 1)
  else []
termination_by text.length - pos
decreasing_by
  have hp := List.find?_some hidx
  rw [Bool.and_eq_true, decide_eq_true_eq] at hp
  exact Nat.sub_lt_sub_left h (Nat.lt_succ_of_le hp.1)

/-- Embeds the highlight-list construction of the highlighter: all
occurrences of every matched-ingredient name, searched in the
lower-cased raw text. -/
def buildHighlights (rawText : String) (matched : List MatchedIngredient) :
    List HighlightSpan :=
  matched.flatMap
    (fun m => collectSpans (lowerChars m.name) (lowerChars rawText) m.type 0)

/-- Insertion into a start-sorted span list. -/
def insertByStart (s : HighlightSpan) : List HighlightSpan → List HighlightSpan
  | [] => [s]
  | t :: ts => if s.start ≤ t.start then s :: t :: ts else t :: insertByStart s ts

/-- Embeds `highlights.sort((a, b) => a.start - b.start)` (insertion
sort by span start). -/
def sortByStart (l : List HighlightSpan) : List HighlightSpan :=
  l.foldr insertByStart []

/-- Embeds the segment-building loop of the highlighter: spans starting
before the cursor are skipped as overlapping; otherwise the unhighlighted
gap (when present) and the highlighted span are emitted and the cursor
jumps to the span end; the remaining tail is emitted last. -/
def buildSegments (raw : List Char) : Nat → List HighlightSpan → List TextSegment
  | cursor, [] =>
    if cursor < raw.length then [{ text := raw.drop cursor, type := none }]
    else []
  | cursor, h :: t =>
    if h.start < cursor then buildSegments raw cursor t
    else
      (if cursor < h.start then
        [{ text := (raw.drop cursor).take (h.start - cursor), type := none }]
      else []) ++
      ({ text := (raw.drop h.start).take (h.stop - h.start),
         type := some h.type } :: buildSegments raw h.stop t)

/-- The full segment computation of IngredientHighlighter. -/
def ingredientHighlighterSegments (rawText : String)
    (matched : List MatchedIngredient) : List TextSegment :=
  buildSegments rawText.data 0 (sortByStart (buildHighlights rawText matched))

/-- The concatenated text of a segment list. -/
def segmentsText (segs : List TextSegment) : List Char :=
  segs.flatMap (fun s => s.text)

end Appergy

namespace Appergy

theorem statusCount_pos_iff (results : List ProfileResult) (s : SafetyStatus) :
    0 < statusCount results s ↔ ∃ r ∈ results, r.status = s := by
  unfold statusCount
  rw [List.length_pos]
  constructor
  · intro h
    rcases List.exists_mem_of_ne_nil _ h with ⟨r, hr⟩
    rw [List.mem_filter] at hr
    exact ⟨r, hr.1, by simpa using hr.2⟩
  · rintro ⟨r, hr, hs⟩
    intro hnil
    have : r ∈ (results.filter (fun r => r.status = s)) := by
      rw [List.mem_filter]
      exact ⟨hr, by simpa using hs⟩
    rw [hnil] at this
    exact absurd this (List.not_mem_nil r)

theorem maxSeverityStatus_cons (r : ProfileResult) (t : List ProfileResult) :
    maxSeverityStatus (r :: t) = maxStatus r.status (maxSeverityStatus t) := rfl

theorem maxStatus_eq_unsafe_iff (a b : SafetyStatus) :
    maxStatus a b = .unsafe_ ↔ a = .unsafe_ ∨ b = .unsafe_ := by
  cases a <;> cases b <;> simp [maxStatus, severity]

theorem maxStatus_eq_safe_iff (a b : SafetyStatus) :
    maxStatus a b = .safe ↔ a = .safe ∧ b = .safe := by
  cases a <;> cases b <;> simp [maxStatus, severity]

theorem maxSeverityStatus_unsafe_iff (results : List ProfileResult) :
    maxSeverityStatus results = .unsafe_ ↔ ∃ r ∈ results, r.status = .unsafe_ := by
  induction results with
  | nil => simp [maxSeverityStatus]
  | cons r t ih =>
    rw [maxSeverityStatus_cons, maxStatus_eq_unsafe_iff, ih]
    simp

theorem maxSeverityStatus_safe_iff (results : List ProfileResult) :
    maxSeverityStatus results = .safe ↔ ∀ r ∈ results, r.status = .safe := by
  induction results with
  | nil => simp [maxSeverityStatus]
  | cons r t ih =>
    rw [maxSeverityStatus_cons, maxStatus_eq_safe_iff, ih]
    simp

theorem status_trichotomy (s : SafetyStatus) :
    s = .safe ∨ s = .caution ∨ s = .unsafe_ := by
  cases s <;> simp

/-- C3: for every list of ProfileResults, the overall scan status computed
by ResultsScreen.tsx (unsafe if any result is unsafe, else caution if any
result is caution, else safe, via the filtered counts) equals the most
severe ProfileResult status present under the order
unsafe > caution > safe. -/
theorem C3_overallStatus_eq_maxSeverity (results : List ProfileResult) :
    overallStatus results = maxSeverityStatus results := by
  unfold overallStatus
  by_cases h1 : ∃ r ∈ results, r.status = SafetyStatus.unsafe_
  · rw [if_pos ((statusCount_pos_iff results _).mpr h1),
      (maxSeverityStatus_unsafe_iff results).mpr h1]
  · rw [if_neg (fun hc => h1 ((statusCount_pos_iff results _).mp hc))]
    by_cases h2 : ∃ r ∈ results, r.status = SafetyStatus.caution
    · rw [if_pos ((statusCount_pos_iff results _).mpr h2)]
      rcases status_trichotomy (maxSeverityStatus results) with hs | hs | hs
      · rcases h2 with ⟨r, hr, hcs⟩
        have := (maxSeverityStatus_safe_iff results).mp hs r hr
        rw [this] at hcs
        exact absurd hcs (by simp)
      · exact hs.symm
      · exact absurd ((maxSeverityStatus_unsafe_iff results).mp hs) h1
    · rw [if_neg (fun hc => h2 ((statusCount_pos_iff results _).mp hc))]
      have hall : ∀ r ∈ results, r.status = SafetyStatus.safe := by
        intro r hr
        rcases status_trichotomy r.status with hs | hs | hs
        · exact hs
        · exact absurd ⟨r, hr, hs⟩ h2
        · exact absurd ⟨r, hr, hs⟩ h1
      exact ((maxSeverityStatus_safe_iff results).mpr hall).symm

theorem profileStatus_spec (als kws prs : List String) :
    (profileStatus als kws prs = .unsafe_ ↔ (als ≠ [] ∨ kws ≠ [])) ∧
    (profileStatus als kws prs = .caution ↔
      (als = [] ∧ kws = [] ∧ prs ≠ [])) ∧
    (profileStatus als kws prs = .safe ↔
      (als = [] ∧ kws = [] ∧ prs = [])) := by
  rcases als with _ | ⟨a, as⟩ <;> rcases kws with _ | ⟨k, ks⟩ <;>
    rcases prs with _ | ⟨p, ps⟩ <;>
    simp [profileStatus, List.isEmpty]

theorem evaluateProfile_status (id name : String) (records : List MatchRecord) :
    (evaluateProfile id name records).status =
      profileStatus (evaluateProfile id name records).matchedAllergens
        (evaluateProfile id name records).matchedKeywords
        (evaluateProfile id name records).matchedPreferences := rfl

/-- C1: for every profile evaluation, the status is unsafe exactly when
the matched-allergen list or the matched-forbidden-keyword list is
non-empty, caution exactly when those are empty and the
matched-preference list is non-empty, and safe exactly when all three
are empty; in particular, the profile with a Milk allergy and a Vegan
preference scanning "Whey protein, Milk" gets a preference conflict yet
status unsafe, not caution. -/
theorem C1_profile_status_policy (id name : String) (records : List MatchRecord) :
    ((evaluateProfile id name records).status = .unsafe_ ↔
      ((evaluateProfile id name records).matchedAllergens ≠ [] ∨
        (evaluateProfile id name records).matchedKeywords ≠ [])) ∧
    ((evaluateProfile id name records).status = .caution ↔
      ((evaluateProfile id name records).matchedAllergens = [] ∧
        (evaluateProfile id name records).matchedKeywords = [] ∧
        (evaluateProfile id name records).matchedPreferences ≠ [])) ∧
    ((evaluateProfile id name records).status = .safe ↔
      ((evaluateProfile id name records).matchedAllergens = [] ∧
        (evaluateProfile id name records).matchedKeywords = [] ∧
        (evaluateProfile id name records).matchedPreferences = [])) ∧
    (analyzeProfile "Whey protein, Milk" veganMilkProfile).status = .unsafe_ ∧
    (analyzeProfile "Whey protein, Milk" veganMilkProfile).matchedPreferences ≠ [] := by
  have h := profileStatus_spec (evaluateProfile id name records).matchedAllergens
    (evaluateProfile id name records).matchedKeywords
    (evaluateProfile id name records).matchedPreferences
  rw [evaluateProfile_status id name records]
  exact ⟨h.1, h.2.1, h.2.2, by decide, by decide⟩

/-- C2: the matcher (modelled from the spec) accepts a case-insensitive
substring occurrence of a pattern in a token exactly when some occurrence
is not bordered on either side by another alphanumeric character; in
particular "Peaches" does not match the pattern "pea", while
"Peanut butter" matches "peanut" and "milk chocolate" matches "milk". -/
theorem C2_word_boundary_guard (pattern token : String) :
    (patternMatches pattern token = true ↔
      ∃ i ≤ (lowerChars token).length,
        occursAt (lowerChars pattern) (lowerChars token) i = true ∧
        (i = 0 ∨
          isAlphanumeric ((lowerChars token).getD (i - 1) ' ') = false) ∧
        ((lowerChars token).length ≤ i + (lowerChars pattern).length ∨
          isAlphanumeric
            ((lowerChars token).getD (i + (lowerChars pattern).length) ' ') =
            false)) ∧
    patternMatches "pea" "Peaches" = false ∧
    patternMatches "peanut" "Peanut butter" = true ∧
    patternMatches "milk" "milk chocolate" = true := by
  refine ⟨?_, by decide, by decide, by decide⟩
  unfold patternMatches acceptedAt boundaryClearAt
  simp only [List.any_eq_true, List.mem_range, Nat.lt_succ_iff,
    Bool.and_eq_true, Bool.or_eq_true, Bool.not_eq_true',
    decide_eq_true_eq, and_assoc]

theorem evaluateProfile_name (id name : String) (records : List MatchRecord) :
    (evaluateProfile id name records).name = name := rfl

theorem prefLine_fold (t : String) :
    "Contains " ++ t ++ " (" ++ ("violates " ++ t ++ " preference") ++ ")" =
      "Contains " ++ t ++ " (violates " ++ t ++ " preference)" := by
  have h1 : (" (" ++ "violates " : String) = " (violates " := by decide
  have h2 : (" preference" ++ ")" : String) = " preference)" := by decide
  simp only [String.append_assoc]
  rw [← String.append_assoc " (" "violates ", h1, h2]

theorem filter_map_eq_self {α β : Type} (l : List α) (f : α → β) (p : β → Bool)
    (h : ∀ a, p (f a) = true) : (l.map f).filter p = l.map f := by
  induction l with
  | nil => rfl
  | cons a t ih => simp [List.filter_cons, h a, ih]

theorem filter_map_eq_nil {α β : Type} (l : List α) (f : α → β) (p : β → Bool)
    (h : ∀ a, p (f a) = false) : (l.map f).filter p = [] := by
  induction l with
  | nil => rfl
  | cons a t ih => simp [List.filter_cons, h a, ih]

/-- C5: for every evaluated profile, the reason lines come in the order
allergens, then forbidden keywords, then preferences, one line per
matched term, in the forms "Contains T (allergen for N)",
"Contains T (forbidden for N)" and "violates T preference"; the
UnsafeIssuesModal renders the same grouping, wrapping the preference
reason as "Contains T (violates T preference)". -/
theorem C5_reason_order_and_forms (id name : String) (records : List MatchRecord) :
    ((evaluateProfile id name records).reasons =
      ((evaluateProfile id name records).matchedAllergens.map
        (fun t => "Contains " ++ t ++ " (allergen for " ++ name ++ ")")) ++
      ((evaluateProfile id name records).matchedKeywords.map
        (fun t => "Contains " ++ t ++ " (forbidden for " ++ name ++ ")")) ++
      ((evaluateProfile id name records).matchedPreferences.map
        (fun t => "violates " ++ t ++ " preference"))) ∧
    renderIssuesModal [evaluateProfile id name records] =
      ((evaluateProfile id name records).matchedAllergens.map
        (fun t => "Contains " ++ t ++ " (allergen for " ++ name ++ ")")) ++
      ((evaluateProfile id name records).matchedKeywords.map
        (fun t => "Contains " ++ t ++ " (forbidden for " ++ name ++ ")")) ++
      ((evaluateProfile id name records).matchedPreferences.map
        (fun t => "Contains " ++ t ++ " (violates " ++ t ++ " preference)")) := by
  constructor
  · rfl
  · by_cases hs : (evaluateProfile id name records).status = .safe
    · have he :=
        ((profileStatus_spec (evaluateProfile id name records).matchedAllergens
            (evaluateProfile id name records).matchedKeywords
            (evaluateProfile id name records).matchedPreferences).2.2).mp
          (by rw [← evaluateProfile_status]; exact hs)
      simp [renderIssuesModal, buildIssues, hs, he.1, he.2.1, he.2.2]
    · simp only [renderIssuesModal, buildIssues, List.flatMap_cons,
        List.flatMap_nil, List.append_nil, if_neg hs, List.filter_append]
      simp +decide [List.filter_map, Function.comp_def, List.map_map,
        modalAllergenLine, modalKeywordLine, modalPreferenceLine,
        evaluateProfile_name]
      exact fun t _ => prefLine_fold t

theorem splitRaw_chars_subset (cs : List Char) :
    ∀ t ∈ splitRaw cs, ∀ c ∈ t, c ∈ cs := by
  induction cs with
  | nil =>
    intro t ht c hc
    simp only [splitRaw, List.mem_singleton] at ht
    subst ht
    exact absurd hc (List.not_mem_nil c)
  | cons a rest ih =>
    intro t ht c hc
    simp only [splitRaw] at ht
    by_cases hsep : isSeparatorChar a = true
    · rw [if_pos hsep] at ht
      rcases List.mem_cons.mp ht with h | h
      · subst h
        exact absurd hc (List.not_mem_nil c)
      · exact List.mem_cons_of_mem a (ih t h c hc)
    · rw [if_neg hsep] at ht
      cases hr : splitRaw rest with
      | nil =>
        rw [hr] at ht
        simp only [List.mem_singleton] at ht
        subst ht
        rcases List.mem_singleton.mp hc with rfl
        exact List.mem_cons_self c rest
      | cons t0 ts =>
        rw [hr] at ht
        rcases List.mem_cons.mp ht with h | h
        · subst h
          rcases List.mem_cons.mp hc with rfl | h2
          · exact List.mem_cons_self c rest
          · have ht0 : t0 ∈ splitRaw rest := by
              rw [hr]; exact List.mem_cons_self t0 ts
            exact List.mem_cons_of_mem a (ih t0 ht0 c h2)
        · have htr : t ∈ splitRaw rest := by
            rw [hr]; exact List.mem_cons_of_mem t0 h
          exact List.mem_cons_of_mem a (ih t htr c hc)

theorem trimChars_of_all_ws (l : List Char)
    (h : ∀ c ∈ l, c.isWhitespace = true) : trimChars l = [] := by
  unfold trimChars
  have h1 : l.dropWhile Char.isWhitespace = [] :=
    List.dropWhile_eq_nil_iff.mpr (fun c hc => h c hc)
  rw [h1]
  rfl

theorem normalizeText_ws (text : String)
    (h : ∀ c ∈ text.data, c.isWhitespace = true) : normalizeText text = [] := by
  unfold normalizeText
  have hf : ((splitRaw text.data).map trimChars).filter (fun t => !t.isEmpty) = [] := by
    rw [List.filter_eq_nil_iff]
    intro t ht
    rcases List.mem_map.mp ht with ⟨t0, ht0, rfl⟩
    have htrim : trimChars t0 = [] :=
      trimChars_of_all_ws t0
        (fun c hc => h c (splitRaw_chars_subset text.data t0 ht0 c hc))
    simp [htrim]
  rw [hf]
  rfl

theorem analyzeProfile_empty_tokens (text : String) (p : Profile)
    (h : normalizeText text = []) :
    (analyzeProfile text p).status = SafetyStatus.safe := by
  unfold analyzeProfile profileMatchRecords
  rw [h]
  rfl

/-- C4 counterexample: empty ingredient text is not surfaced distinctly —
the engine yields the same safe status for the empty input as for a
genuinely analyzed clean input, and the overall status of both scans is
the identical `safe`. -/
theorem C4_counterexample_collapse :
    normalizeText "" = [] ∧
    (analyzeProfile "" veganMilkProfile).status = SafetyStatus.safe ∧
    (analyzeProfile "Salt" veganMilkProfile).status = SafetyStatus.safe ∧
    overallStatus [analyzeProfile "" veganMilkProfile] =
      overallStatus [analyzeProfile "Salt" veganMilkProfile] := by
  exact ⟨by decide, by decide, by decide, by decide⟩

/-- C4 (amended): the normalizer yields an empty token sequence on empty
or whitespace-only input, but the empty-input case is not surfaced
distinctly: every profile evaluated on such input gets the plain `safe`
status, the same value a genuine no-matches result gets. -/
theorem C4_empty_input_empty_tokens_same_safe (text : String)
    (h : ∀ c ∈ text.data, c.isWhitespace = true) :
    normalizeText text = [] ∧
    ∀ p : Profile, (analyzeProfile text p).status = SafetyStatus.safe :=
  ⟨normalizeText_ws text h,
    fun p => analyzeProfile_empty_tokens text p (normalizeText_ws text h)⟩

/-- Witness for the amended C4 at the whitespace-only input "   "
evaluated for the concrete Milk-and-Vegan profile. -/
theorem C4_empty_input_witness :
    normalizeText "   " = [] ∧
    (analyzeProfile "   " veganMilkProfile).status = SafetyStatus.safe :=
  ⟨(C4_empty_input_empty_tokens_same_safe "   " (by decide)).1,
    (C4_empty_input_empty_tokens_same_safe "   " (by decide)).2 veganMilkProfile⟩

/-- C6: a stored profile record with missing collections is never
rejected: the loader builds a total Profile and every absent allergy or
preference collection (missing entirely, or structured with missing
common/custom arrays) becomes the empty list, with the name defaulting
to the fallback user name. -/
theorem C6_malformed_profile_defaults (id fallbackName : String)
    (kw : List String) (data : RawProfileData) :
    (data.allergies = none →
      (loadProfileFromData id fallbackName kw data).allergies = []) ∧
    (data.preferences = none →
      (loadProfileFromData id fallbackName kw data).preferences = []) ∧
    (∀ noneFlag, data.allergies = some (.structured none none noneFlag) →
      (loadProfileFromData id fallbackName kw data).allergies = []) ∧
    (∀ noneFlag, data.preferences = some (.structured none none noneFlag) →
      (loadProfileFromData id fallbackName kw data).preferences = []) ∧
    (data.name = none →
      (loadProfileFromData id fallbackName kw data).name = fallbackName) := by
  refine ⟨fun h => ?_, fun h => ?_, fun nf h => ?_, fun nf h => ?_, fun h => ?_⟩ <;>
    simp [loadProfileFromData, extractTerms, h]

/-- Witness for C6 at the fully-missing record. -/
theorem C6_malformed_profile_witness :
    (loadProfileFromData "mainProfile" "You" []
      { name := none, allergies := none, preferences := none }).allergies = [] ∧
    (loadProfileFromData "mainProfile" "You" []
      { name := none, allergies := none, preferences := none }).preferences = [] ∧
    (loadProfileFromData "mainProfile" "You" []
      { name := none, allergies := none, preferences := none }).name = "You" :=
  ⟨(C6_malformed_profile_defaults "mainProfile" "You" []
      { name := none, allergies := none, preferences := none }).1 rfl,
    (C6_malformed_profile_defaults "mainProfile" "You" []
      { name := none, allergies := none, preferences := none }).2.1 rfl,
    (C6_malformed_profile_defaults "mainProfile" "You" []
      { name := none, allergies := none, preferences := none }).2.2.2.2 rfl⟩

/-- C7: the text handed to the engine for a barcode product is the
ingredient list followed by the allergens rendered as "Contains: A",
joined with ", ", and the handler routes to the analyzeBarcodeProduct
fallback exactly when that combined text is empty. -/
theorem C7_barcode_text_and_fallback (p : BarcodeProduct) :
    buildBarcodeText p =
      String.intercalate ", "
        ((p.ingredients.getD []) ++
          (p.allergens.getD []).map (fun a => "Contains: " ++ a)) ∧
    chooseBarcodeAnalysis p =
      (if buildBarcodeText p = "" then BarcodeAnalysisRoute.barcodeFallback
       else BarcodeAnalysisRoute.pipelineText (buildBarcodeText p)) := by
  refine ⟨rfl, ?_⟩
  unfold chooseBarcodeAnalysis
  by_cases h : buildBarcodeText p = ""
  · rw [if_pos h, h]
    rfl
  · rw [if_neg h, if_pos]
    refine Nat.pos_of_ne_zero (fun hz => h ?_)
    cases hp : buildBarcodeText p with
    | mk data =>
      rw [hp] at hz
      cases data with
      | nil => rfl
      | cons c cs => simp [String.length] at hz

theorem dishVerdict_spec (l : List ConflictRecord) :
    (dishVerdict l = .unsafeVerdict ↔ l ≠ []) ∧
    (dishVerdict l = .safeVerdict ↔ l = []) := by
  rcases l with _ | ⟨c, cs⟩ <;> simp [dishVerdict]

/-- C8: the dish verdict of the menu adapter (modelled from the spec) is
two-valued — Unsafe exactly when at least one ConflictRecord exists and
Safe exactly when none does; a dish whose only conflicts are preference
mismatches (the Vegan viewer on a Honey dish) is still Unsafe, no third
caution state being exposed. -/
theorem C8_menu_verdict_two_valued (ings : List String) (viewer : Profile) :
    (dishVerdict (dishConflicts ings viewer) = .unsafeVerdict ↔
      dishConflicts ings viewer ≠ []) ∧
    (dishVerdict (dishConflicts ings viewer) = .safeVerdict ↔
      dishConflicts ings viewer = []) ∧
    (∀ v : MenuVerdict, v = .safeVerdict ∨ v = .unsafeVerdict) ∧
    dishVerdict (dishConflicts ["Honey"] veganOnlyProfile) = .unsafeVerdict ∧
    (dishConflicts ["Honey"] veganOnlyProfile).all
      (fun c => c.type = ConflictType.preferenceMismatch) = true := by
  exact ⟨(dishVerdict_spec _).1, (dishVerdict_spec _).2,
    fun v => by cases v <;> simp, by decide, by decide⟩

/-- C10: toggling a profile never empties a duplicate-free non-empty
selection — deselecting is refused when exactly one profile is selected,
and the selection also stays duplicate-free. -/
theorem C10_toggle_preserves_nonempty (selected : List String) (id : String)
    (hne : selected ≠ []) (hnd : selected.Nodup) :
    toggleProfile selected id ≠ [] ∧ (toggleProfile selected id).Nodup := by
  unfold toggleProfile
  by_cases hin : selected.contains id
  · rw [if_pos hin]
    by_cases hlen : 1 < selected.length
    · rw [if_pos hlen]
      refine ⟨?_, List.Nodup.filter _ hnd⟩
      rcases selected with _ | ⟨a, rest⟩
      · exact absurd rfl hne
      rcases rest with _ | ⟨b, rest2⟩
      · simp at hlen
      have hnd2 := List.nodup_cons.mp hnd
      by_cases hab : a = id
      · have hbne : ¬(b = id) := by
          intro hb
          exact hnd2.1 (by rw [hab, ← hb]; exact List.mem_cons_self b rest2)
        intro hnil
        have hbmem : b ∈ (a :: b :: rest2).filter (fun x => x ≠ id) :=
          List.mem_filter.mpr ⟨by simp, by simpa using hbne⟩
        rw [hnil] at hbmem
        exact absurd hbmem (List.not_mem_nil b)
      · intro hnil
        have hamem : a ∈ (a :: b :: rest2).filter (fun x => x ≠ id) :=
          List.mem_filter.mpr ⟨List.mem_cons_self a (b :: rest2), by simpa using hab⟩
        rw [hnil] at hamem
        exact absurd hamem (List.not_mem_nil a)
    · rw [if_neg hlen]
      exact ⟨hne, hnd⟩
  · rw [if_neg hin]
    have hidnot : id ∉ selected := by simpa using hin
    refine ⟨by simp, ?_⟩
    rw [List.nodup_append]
    exact ⟨hnd, List.nodup_singleton id, by simpa using hidnot⟩

/-- Witness for C10 at the singleton selection toggled on its own id. -/
theorem C10_toggle_witness :
    toggleProfile ["mainProfile"] "mainProfile" ≠ [] ∧
    (toggleProfile ["mainProfile"] "mainProfile").Nodup :=
  C10_toggle_preserves_nonempty ["mainProfile"] "mainProfile"
    (by decide) (by decide)

theorem collectSpans_start_le_stop_aux (pat text : List Char) (ty : String) :
    ∀ n pos, text.length - pos ≤ n →
      ∀ s ∈ collectSpans pat text ty pos, s.start ≤ s.stop := by
  intro n
  induction n with
  | zero =>
    intro pos hpos s hs
    rw [collectSpans, dif_neg (by omega)] at hs
    exact absurd hs (List.not_mem_nil s)
  | succ n ih =>
    intro pos hpos s hs
    rw [collectSpans] at hs
    by_cases h : pos < text.length
    · rw [dif_pos h] at hs
      split at hs
      · exact absurd hs (List.not_mem_nil s)
      · rename_i idx hidx
        rcases List.mem_cons.mp hs with rfl | htail
        · exact Nat.le_add_right idx pat.length
        · have hge : pos ≤ idx := by
            have hp := List.find?_some hidx
            rw [Bool.and_eq_true, decide_eq_true_eq] at hp
            exact hp.1
          exact ih (idx + 1) (by omega) s htail
    · rw [dif_neg h] at hs
      exact absurd hs (List.not_mem_nil s)

theorem buildHighlights_start_le_stop (rawText : String)
    (matched : List MatchedIngredient) :
    ∀ s ∈ buildHighlights rawText matched, s.start ≤ s.stop := by
  intro s hs
  rcases List.mem_flatMap.mp hs with ⟨m, _, hsm⟩
  exact collectSpans_start_le_stop_aux (lowerChars m.name) (lowerChars rawText)
    m.type (lowerChars rawText).length 0 (by omega) s hsm

theorem mem_insertByStart (s x : HighlightSpan) (l : List HighlightSpan)
    (h : x ∈ insertByStart s l) : x = s ∨ x ∈ l := by
  induction l with
  | nil =>
    simp only [insertByStart, List.mem_singleton] at h
    exact Or.inl h
  | cons t ts ih =>
    simp only [insertByStart] at h
    by_cases hle : s.start ≤ t.start
    · rw [if_pos hle] at h
      exact List.mem_cons.mp h
    · rw [if_neg hle] at h
      rcases List.mem_cons.mp h with rfl | h2
      · exact Or.inr (List.mem_cons_self x ts)
      · rcases ih h2 with h3 | h3
        · exact Or.inl h3
        · exact Or.inr (List.mem_cons_of_mem t h3)

theorem mem_sortByStart (l : List HighlightSpan) :
    ∀ x ∈ sortByStart l, x ∈ l := by
  induction l with
  | nil => intro x hx; exact absurd hx (List.not_mem_nil x)
  | cons t ts ih =>
    intro x hx
    have hx2 : x ∈ insertByStart t (sortByStart ts) := hx
    rcases mem_insertByStart t x (sortByStart ts) hx2 with rfl | h2
    · exact List.mem_cons_self x ts
    · exact List.mem_cons_of_mem t (ih x h2)

theorem drop_split_at (raw : List Char) (a b : Nat) (hab : a ≤ b) :
    raw.drop a = (raw.drop a).take (b - a) ++ raw.drop b := by
  conv_lhs => rw [← List.take_append_drop (b - a) (raw.drop a)]
  rw [List.drop_drop, Nat.add_sub_cancel' hab]

theorem segmentsText_nil : segmentsText [] = [] := rfl

theorem segmentsText_cons (a : TextSegment) (l : List TextSegment) :
    segmentsText (a :: l) = a.text ++ segmentsText l := by
  simp [segmentsText]

theorem segmentsText_append (l1 l2 : List TextSegment) :
    segmentsText (l1 ++ l2) = segmentsText l1 ++ segmentsText l2 := by
  simp [segmentsText]

theorem segmentsText_buildSegments (raw : List Char) :
    ∀ (spans : List HighlightSpan) (cursor : Nat),
      (∀ s ∈ spans, s.start ≤ s.stop) →
      segmentsText (buildSegments raw cursor spans) = raw.drop cursor := by
  intro spans
  induction spans with
  | nil =>
    intro cursor _
    by_cases h : cursor < raw.length
    · simp [buildSegments, h, segmentsText]
    · simp only [buildSegments, if_neg h, segmentsText_nil]
      exact (List.drop_eq_nil_of_le (Nat.le_of_not_lt h)).symm
  | cons hspan t ih =>
    intro cursor hv
    have hhead := hv hspan (List.mem_cons_self _ _)
    have htail : ∀ s ∈ t, s.start ≤ s.stop :=
      fun s hs => hv s (List.mem_cons_of_mem _ hs)
    by_cases hlt : hspan.start < cursor
    · simp only [buildSegments, if_pos hlt]
      exact ih cursor htail
    · have hcs : cursor ≤ hspan.start := Nat.le_of_not_lt hlt
      simp only [buildSegments, if_neg hlt]
      by_cases hgap : cursor < hspan.start
      · rw [if_pos hgap, segmentsText_append, segmentsText_cons,
          segmentsText_cons, segmentsText_nil, List.append_nil,
          ih hspan.stop htail]
        rw [← drop_split_at raw hspan.start hspan.stop hhead]
        rw [← drop_split_at raw cursor hspan.start hcs]
      · have heq : hspan.start = cursor :=
          Nat.le_antisymm (Nat.le_of_not_lt hgap) hcs
        rw [if_neg hgap, List.nil_append, segmentsText_cons,
          ih hspan.stop htail]
        rw [heq, ← drop_split_at raw cursor hspan.stop (heq ▸ hhead)]

/-- C9: the highlight segments computed by IngredientHighlighter
partition the input — concatenating the segment texts in order
reproduces the raw text exactly, overlapping spans being skipped rather
than duplicating or dropping characters. -/
theorem C9_highlighter_partition (rawText : String)
    (matched : List MatchedIngredient) :
    segmentsText (ingredientHighlighterSegments rawText matched) =
      rawText.data := by
  unfold ingredientHighlighterSegments
  have hv : ∀ s ∈ sortByStart (buildHighlights rawText matched),
      s.start ≤ s.stop :=
    fun s hs =>
      buildHighlights_start_le_stop rawText matched s
        (mem_sortByStart (buildHighlights rawText matched) s hs)
  rw [segmentsText_buildSegments rawText.data
    (sortByStart (buildHighlights rawText matched)) 0 hv]
  exact List.drop_zero rawText.data

end Appergy
